import Mathlib

/-!
Verification of the browser-session orchestration layer of
`that-cli-web-toolbox` (Go), shallowly embedded in Lean 4.

Strings handled by the Go code are modelled either as Lean `String`s or,
where character-level reasoning is needed (endpoint validation, quote
stripping), as `List Char`.  Fallible Go functions returning
`(T, error)` are modelled as `Except String T`.  Sequences of chromedp
actions submitted to `chromedp.Run` are modelled as lists of an
`CdpAction` datatype, interpreted into event traces.
-/

namespace ThatCliWebToolbox

/-! ### Go `strings` package helpers -/

/-- Character-level model of Go `strings.Contains`: does `pat` occur as a
contiguous substring of the second argument? -/
def hasSubstr (pat : List Char) : List Char → Bool
  | [] => pat.isEmpty
  | c :: t => pat.isPrefixOf (c :: t) || hasSubstr pat t

/-- Go `strings.Contains` on `String`s. -/
def strContains (s pat : String) : Bool :=
  hasSubstr pat.data s.data

/-! ### `main.go`: delay validation and timeout auto-adjustment
(`runThatCliWebBrowser`, lines 158-175) -/

/-- The configuration fields consulted by the delay/timeout logic of
`runThatCliWebBrowser`. -/
structure Config where
  Timeout : Int
  Delay : Int
deriving DecidableEq, Repr

/-- Log entries emitted by the delay/timeout logic (warn for large delay,
info for the automatic timeout adjustment). -/
inductive MainLog where
  | warnLargeDelay (delay : Int)
  | infoTimeoutAdjusted (originalTimeout delay newTimeout : Int)
deriving DecidableEq, Repr

/-- Embeds `main.go` lines 158-175: reject a negative delay with an error;
warn (log only) on a delay above 60; if `Timeout <= Delay + 10`, raise the
effective timeout to `Delay + 10` and log the adjustment at info level.
Returns the effective timeout together with the emitted log entries. -/
def validateDelayAndAdjustTimeout (cfg : Config) : Except String (Int × List MainLog) :=
  if cfg.Delay < 0 then
    Except.error ("delay cannot be negative: " ++ toString cfg.Delay)
  else
    let warnLogs : List MainLog :=
      if cfg.Delay > 60 then [MainLog.warnLargeDelay cfg.Delay] else []
    if cfg.Timeout ≤ cfg.Delay + 10 then
      Except.ok (cfg.Delay + 10,
        warnLogs ++ [MainLog.infoTimeoutAdjusted cfg.Timeout cfg.Delay (cfg.Delay + 10)])
    else
      Except.ok (cfg.Timeout, warnLogs)

/-- C1: For every configured delay ≥ 0 and configured timeout, the run
succeeds (the adjustment is never an error); if `timeout ≤ delay + 10` the
effective timeout is `delay + 10` and the adjustment is logged; otherwise
the effective timeout is the configured timeout and no adjustment entry is
logged. -/
theorem timeout_adjustment (timeout delay : Int) (hd : 0 ≤ delay) :
    ∃ eff logs,
      validateDelayAndAdjustTimeout ⟨timeout, delay⟩ = Except.ok (eff, logs) ∧
      (timeout ≤ delay + 10 →
        eff = delay + 10 ∧
          MainLog.infoTimeoutAdjusted timeout delay (delay + 10) ∈ logs) ∧
      (delay + 10 < timeout →
        eff = timeout ∧ ∀ o d n, MainLog.infoTimeoutAdjusted o d n ∉ logs) := by
  unfold validateDelayAndAdjustTimeout
  have hneg : ¬ delay < 0 := not_lt.mpr hd
  by_cases hle : timeout ≤ delay + 10
  · refine ⟨delay + 10,
      (if delay > 60 then [MainLog.warnLargeDelay delay] else []) ++
        [MainLog.infoTimeoutAdjusted timeout delay (delay + 10)], ?_, ?_, ?_⟩
    · simp [hneg, hle]
    · intro _
      exact ⟨rfl, by simp⟩
    · intro hgt
      exact absurd hle (not_le.mpr hgt)
  · refine ⟨timeout, if delay > 60 then [MainLog.warnLargeDelay delay] else [],
      ?_, ?_, ?_⟩
    · simp [hneg, hle]
    · intro h
      exact absurd h hle
    · intro _
      refine ⟨rfl, ?_⟩
      intro o d n
      by_cases h60 : delay > 60 <;> simp [h60]

/-- Witness for C1 at the spec's own example `delay = 15, timeout = 10`:
the effective timeout is `25` and the adjustment is logged. -/
theorem timeout_adjustment_witness :
    (0 : Int) ≤ 15 ∧
    ∃ eff logs,
      validateDelayAndAdjustTimeout ⟨10, 15⟩ = Except.ok (eff, logs) ∧
      ((10 : Int) ≤ 15 + 10 →
        eff = 15 + 10 ∧ MainLog.infoTimeoutAdjusted 10 15 (15 + 10) ∈ logs) ∧
      ((15 : Int) + 10 < 10 →
        eff = 10 ∧ ∀ o d n, MainLog.infoTimeoutAdjusted o d n ∉ logs) :=
  ⟨by decide, timeout_adjustment 10 15 (by decide)⟩

/-! ### `pkg/chromedp/chromedp.go`: the Browser session and chromedp actions -/

/-- One call made by a `Browser.Cancel` closure, in order. -/
inductive CancelEvent where
  | sessionDeadline
  | taskHandle
  | allocator
deriving DecidableEq, Repr

/-- The `Browser` struct (Go: `Ctx`, `Cancel`, `TargetURL`, `Delay`, `JSCode`).
The opaque `Ctx` is not modelled; the `Cancel` closure is modelled by the
ordered list of context-cancel calls it performs. -/
structure Browser where
  TargetURL : String
  Delay : Int
  JSCode : String
  cancelTrace : List CancelEvent
deriving DecidableEq, Repr

/-- How a script is handed to the browser: plain `chromedp.Evaluate`, or
`runtime.Evaluate(..).WithAwaitPromise(true)`. -/
inductive EvalKind where
  | direct
  | awaitPromise
deriving DecidableEq, Repr

/-- A chromedp action submitted to `chromedp.Run`, as a datatype. -/
inductive CdpAction where
  | navigate (url : String)
  | logDelay
  | sleep (seconds : Int)
  | noOp
  | evaluate (script : String) (kind : EvalKind)
  | fullScreenshot (quality : Nat)
  | printToPDF (printBackground : Bool)
deriving DecidableEq, Repr

def CdpAction.isNavigate : CdpAction → Bool
  | CdpAction.navigate _ => true
  | _ => false

/-- The async IIFE wrapper of `executeJSAction`:
`jsCode = "(async () => { " + jsCode + " })();"` (braces escaped here). -/
def asyncWrap (code : String) : String :=
  "(async () => \x7b " ++ code ++ " \x7d)();"

/-- Embeds `executeJSAction` (chromedp.go lines 109-151): empty script gives
a no-op action returning nil; a script containing `await` is wrapped in an
async IIFE and evaluated with the promise awaited; otherwise the raw script
is evaluated directly. -/
def Browser.executeJSAction (b : Browser) : CdpAction :=
  if b.JSCode = "" then
    CdpAction.noOp
  else if strContains b.JSCode "await" then
    CdpAction.evaluate (asyncWrap b.JSCode) EvalKind.awaitPromise
  else
    CdpAction.evaluate b.JSCode EvalKind.direct

/-- Embeds `NavigateAndPrepare` (chromedp.go lines 155-174): the exact action
sequence handed to `chromedp.Run`. -/
def Browser.navigateAndPrepareActions (b : Browser) : List CdpAction :=
  [CdpAction.navigate b.TargetURL, CdpAction.logDelay,
   CdpAction.sleep b.Delay, b.executeJSAction]

/-- The single-quote character, `'`. -/
def squote : Char := Char.ofNat 39

/-- The double-quote character, `"`. -/
def dquote : Char := Char.ofNat 34

/-- `squote` as a one-character string. -/
def sq : String := String.singleton squote

/-- The fixed text before the spliced selector in `GetTextBySelector`'s
evaluated script (chromedp.go lines 241-243): a newline, three tabs, then
`Array.from(document.querySelectorAll(` and a single quote. -/
def querySelectorScriptOpen : String :=
  "\n\t\t\tArray.from(document.querySelectorAll(" ++ sq

/-- The fixed text after the spliced selector: a single quote, then
`)).map(el => el.innerText.trim()).filter(text => text.length > 0)`,
a newline and two tabs. -/
def querySelectorScriptClose : String :=
  sq ++ ")).map(el => el.innerText.trim()).filter(text => text.length > 0)\n\t\t"

/-- The full JavaScript source evaluated by `GetTextBySelector`: the selector
spliced verbatim between the fixed open and close parts. -/
def textBySelectorScript (selector : String) : String :=
  querySelectorScriptOpen ++ selector ++ querySelectorScriptClose

/-- Action list submitted by `GetTextBySelector` in the pipeline-based
first staged revision (chromedp.go lines 236-260): a single Evaluate, no
navigation. -/
def Browser.getTextBySelectorActions (_b : Browser) (selector : String) : List CdpAction :=
  [CdpAction.evaluate (textBySelectorScript selector) EvalKind.direct]

/-- Action list submitted by `GetBodyText` in the first staged revision
(chromedp.go lines 230-232): delegates to `GetTextBySelector "body"`. -/
def Browser.getBodyTextActions (b : Browser) : List CdpAction :=
  b.getTextBySelectorActions "body"

/-- Action list submitted by `TakeScreenshot` in the first staged revision
(chromedp.go lines 264-278): a single `FullScreenshot` with quality 90, no
navigation. -/
def Browser.takeScreenshotActions (_b : Browser) : List CdpAction :=
  [CdpAction.fullScreenshot 90]

/-- Action list submitted by `PrintToPDF` in the first staged revision
(chromedp.go lines 282-300): a single
`PrintToPDF().WithPrintBackground(true)`, no navigation. -/
def Browser.printToPDFActions (_b : Browser) : List CdpAction :=
  [CdpAction.printToPDF true]

/-- The fixed text after the spliced selector in the second staged
revision's script (chromedp.go line 460): as the first revision's but with
`textContent` in place of `innerText`. -/
def querySelectorScriptCloseV2 : String :=
  sq ++ ")).map(el => el.textContent.trim()).filter(text => text.length > 0)\n\t\t"

/-- The JavaScript source evaluated by the second staged revision's
`GetTextBySelector` (chromedp.go lines 459-461). -/
def textBySelectorScriptV2 (selector : String) : String :=
  querySelectorScriptOpen ++ selector ++ querySelectorScriptCloseV2

/-- Action list submitted by the second staged revision's
`GetTextBySelector` (chromedp.go lines 457-462): a Navigate of the target
address followed by the evaluation.  That revision's executors read only
the target URL from the session. -/
def getTextBySelectorActionsV2 (targetURL selector : String) : List CdpAction :=
  [CdpAction.navigate targetURL,
   CdpAction.evaluate (textBySelectorScriptV2 selector) EvalKind.direct]

/-- Action list of the second staged revision's `GetBodyText`
(chromedp.go lines 448-450). -/
def getBodyTextActionsV2 (targetURL : String) : List CdpAction :=
  getTextBySelectorActionsV2 targetURL "body"

/-- Action list of the second staged revision's `TakeScreenshot`
(chromedp.go lines 485-488): Navigate, then the screenshot. -/
def takeScreenshotActionsV2 (targetURL : String) : List CdpAction :=
  [CdpAction.navigate targetURL, CdpAction.fullScreenshot 90]

/-- Action list of the second staged revision's `PrintToPDF`
(chromedp.go lines 503-510): Navigate, then the PDF print. -/
def printToPDFActionsV2 (targetURL : String) : List CdpAction :=
  [CdpAction.navigate targetURL, CdpAction.printToPDF true]

/-- C2 (amended): In the pipeline-based first staged revision of
chromedp.go, no action executor (text by selector, body text, screenshot,
PDF) submits a navigation action: each runs against the page prepared by
the one `NavigateAndPrepare` run.  (The second staged revision's
executors each re-navigate the target address; see the counterexample.) -/
theorem executors_do_not_navigate (b : Browser) (selector : String) :
    ((b.getTextBySelectorActions selector).all
        (fun a => !a.isNavigate)) = true ∧
    (b.getBodyTextActions.all (fun a => !a.isNavigate)) = true ∧
    (b.takeScreenshotActions.all (fun a => !a.isNavigate)) = true ∧
    (b.printToPDFActions.all (fun a => !a.isNavigate)) = true := by
  refine ⟨?_, ?_, ?_, ?_⟩ <;>
    simp [Browser.getTextBySelectorActions, Browser.getBodyTextActions,
      Browser.takeScreenshotActions, Browser.printToPDFActions,
      CdpAction.isNavigate, List.all]

/-- C2 counterexample: in the second staged revision (chromedp.go lines
458, 486, 504) every executor submits a navigation of the target address,
so the claim as stated over the staged code fails at the concrete session
target `https://example.com`. -/
theorem executors_navigate_counterexample :
    ((getTextBySelectorActionsV2 "https://example.com" "body").all
        (fun a => !a.isNavigate)) = false ∧
    ((takeScreenshotActionsV2 "https://example.com").all
        (fun a => !a.isNavigate)) = false ∧
    ((printToPDFActionsV2 "https://example.com").all
        (fun a => !a.isNavigate)) = false ∧
    CdpAction.navigate "https://example.com" ∈
      getTextBySelectorActionsV2 "https://example.com" "body" := by
  refine ⟨rfl, rfl, rfl, ?_⟩
  simp [getTextBySelectorActionsV2]

/-- C3: For a non-empty configured script, if the text contains the
substring `await` then `executeJSAction` evaluates the async-IIFE wrapping
of the script with its promise awaited; otherwise it evaluates the raw
text directly without wrapping. -/
theorem async_detection (b : Browser) (h : b.JSCode ≠ "") :
    (strContains b.JSCode "await" = true →
      b.executeJSAction =
        CdpAction.evaluate ("(async () => \x7b " ++ b.JSCode ++ " \x7d)();")
          EvalKind.awaitPromise) ∧
    (strContains b.JSCode "await" = false →
      b.executeJSAction = CdpAction.evaluate b.JSCode EvalKind.direct) := by
  constructor <;> intro hc <;>
    simp [Browser.executeJSAction, asyncWrap, h, hc]

/-- Witness for C3 on the scripts `"await done"` (wrapped, awaited) and
`"plain()"` (evaluated directly). -/
theorem async_detection_witness :
    (({ TargetURL := "u", Delay := 0, JSCode := "await done",
        cancelTrace := [] } : Browser).JSCode ≠ "" ∧
      (strContains "await done" "await" = true →
        Browser.executeJSAction
            { TargetURL := "u", Delay := 0, JSCode := "await done",
              cancelTrace := [] } =
          CdpAction.evaluate ("(async () => \x7b " ++ "await done" ++ " \x7d)();")
            EvalKind.awaitPromise)) ∧
    (({ TargetURL := "u", Delay := 0, JSCode := "plain()",
        cancelTrace := [] } : Browser).JSCode ≠ "" ∧
      (strContains "plain()" "await" = false →
        Browser.executeJSAction
            { TargetURL := "u", Delay := 0, JSCode := "plain()",
              cancelTrace := [] } =
          CdpAction.evaluate "plain()" EvalKind.direct)) :=
  ⟨⟨by decide,
    (async_detection
      { TargetURL := "u", Delay := 0, JSCode := "await done", cancelTrace := [] }
      (by decide)).1⟩,
   ⟨by decide,
    (async_detection
      { TargetURL := "u", Delay := 0, JSCode := "plain()", cancelTrace := [] }
      (by decide)).2⟩⟩

/-! ### Interpreting chromedp action lists (`chromedp.Run`) -/

/-- External browser behaviour: whether each browser-touching action is
accepted.  `logDelay`, `sleep` and the empty-script no-op never fail,
matching the source (they only log / wait / return nil). -/
structure BrowserEnv where
  navOk : String → Bool
  evalOk : String → EvalKind → Bool
  shotOk : Bool
  pdfOk : Bool

/-- Observable browser-side events of a run. -/
inductive TraceEv where
  | navigated (url : String)
  | slept (seconds : Int)
  | jsEvaluated (script : String) (kind : EvalKind)
  | screenshotTaken (quality : Nat)
  | pdfPrinted (printBackground : Bool)
deriving DecidableEq, Repr

/-- Run one chromedp action against the environment. -/
def runActionE (env : BrowserEnv) : CdpAction → Except String (List TraceEv)
  | CdpAction.navigate u =>
      if env.navOk u then Except.ok [TraceEv.navigated u]
      else Except.error ("navigate failed: " ++ u)
  | CdpAction.logDelay => Except.ok []
  | CdpAction.sleep s => Except.ok [TraceEv.slept s]
  | CdpAction.noOp => Except.ok []
  | CdpAction.evaluate s k =>
      if env.evalOk s k then Except.ok [TraceEv.jsEvaluated s k]
      else Except.error "evaluate failed"
  | CdpAction.fullScreenshot q =>
      if env.shotOk then Except.ok [TraceEv.screenshotTaken q]
      else Except.error "screenshot failed"
  | CdpAction.printToPDF bg =>
      if env.pdfOk then Except.ok [TraceEv.pdfPrinted bg]
      else Except.error "pdf failed"

/-- `chromedp.Run`: execute the actions in order, aborting at the first
failure, concatenating the event traces. -/
def runActionsE (env : BrowserEnv) : List CdpAction → Except String (List TraceEv)
  | [] => Except.ok []
  | a :: rest =>
    match runActionE env a with
    | Except.error e => Except.error e
    | Except.ok tr =>
      match runActionsE env rest with
      | Except.error e => Except.error e
      | Except.ok tr2 => Except.ok (tr ++ tr2)

theorem runActionsE_append (env : BrowserEnv) (xs ys : List CdpAction)
    (tr : List TraceEv) (h : runActionsE env (xs ++ ys) = Except.ok tr) :
    ∃ t1 t2, tr = t1 ++ t2 ∧ runActionsE env xs = Except.ok t1 ∧
      runActionsE env ys = Except.ok t2 := by
  induction xs generalizing tr with
  | nil =>
    exact ⟨[], tr, rfl, rfl, h⟩
  | cons a xs ih =>
    rw [List.cons_append] at h
    unfold runActionsE at h
    cases ha : runActionE env a with
    | error e => rw [ha] at h; exact absurd h (by simp)
    | ok t =>
      rw [ha] at h
      cases hrest : runActionsE env (xs ++ ys) with
      | error e => rw [hrest] at h; exact absurd h (by simp)
      | ok trRest =>
        rw [hrest] at h
        have htr : t ++ trRest = tr := by
          simpa using h
        obtain ⟨t1, t2, h12, hxs, hys⟩ := ih trRest hrest
        refine ⟨t ++ t1, t2, ?_, ?_, hys⟩
        · rw [← htr, h12, List.append_assoc]
        · unfold runActionsE
          rw [ha, hxs]

/-- C5: In every successful `NavigateAndPrepare` run, the trace is exactly
navigation to the target address, then the sleep of the configured delay,
then the script-injection step's events; with no configured script the
injection step is the no-op action and succeeds with no events; and in a
combined run, the executor actions' events all come after the whole
pipeline trace. -/
theorem navigation_pipeline_order (b : Browser) (env : BrowserEnv)
    (tr : List TraceEv) (execActs : List CdpAction) (trAll : List TraceEv)
    (hrun : runActionsE env b.navigateAndPrepareActions = Except.ok tr)
    (hall : runActionsE env (b.navigateAndPrepareActions ++ execActs) =
      Except.ok trAll) :
    (∃ jsTr, runActionE env b.executeJSAction = Except.ok jsTr ∧
        tr = TraceEv.navigated b.TargetURL :: TraceEv.slept b.Delay :: jsTr) ∧
    (b.JSCode = "" → b.executeJSAction = CdpAction.noOp ∧
        runActionE env CdpAction.noOp = Except.ok []) ∧
    (∃ execTr, runActionsE env execActs = Except.ok execTr ∧
        trAll = tr ++ execTr) := by
  have hnav : env.navOk b.TargetURL = true := by
    by_contra hn
    rw [Bool.not_eq_true] at hn
    simp [Browser.navigateAndPrepareActions, runActionsE, runActionE, hn]
      at hrun
  have h1 : runActionE env (CdpAction.navigate b.TargetURL) =
      Except.ok [TraceEv.navigated b.TargetURL] := by
    simp [runActionE, hnav]
  have h2 : runActionE env CdpAction.logDelay = Except.ok [] := rfl
  have h3 : runActionE env (CdpAction.sleep b.Delay) =
      Except.ok [TraceEv.slept b.Delay] := rfl
  refine ⟨?_, ?_, ?_⟩
  · cases hjs : runActionE env b.executeJSAction with
    | error e =>
      simp only [Browser.navigateAndPrepareActions, runActionsE,
        h1, h2, h3, hjs] at hrun
      exact absurd hrun (by simp)
    | ok jsTr =>
      refine ⟨jsTr, rfl, ?_⟩
      simp only [Browser.navigateAndPrepareActions, runActionsE,
        h1, h2, h3, hjs] at hrun
      simp at hrun
      exact hrun.symm
  · intro h0
    refine ⟨?_, rfl⟩
    simp [Browser.executeJSAction, h0]
  · obtain ⟨t1, t2, h12, hxs, hys⟩ :=
      runActionsE_append env _ _ _ hall
    have ht1 : t1 = tr := by
      have h := hrun.symm.trans hxs
      simpa using h.symm
    exact ⟨t2, hys, by rw [h12, ht1]⟩

/-- Witness for C5: an all-accepting environment, an empty configured
script and a single screenshot executor after the pipeline. -/
theorem navigation_pipeline_order_witness :
    runActionsE
        { navOk := fun _ => true, evalOk := fun _ _ => true,
          shotOk := true, pdfOk := true }
        (Browser.navigateAndPrepareActions
          { TargetURL := "https://example.com", Delay := 2, JSCode := "",
            cancelTrace := [] }) =
      Except.ok [TraceEv.navigated "https://example.com", TraceEv.slept 2] ∧
    runActionsE
        { navOk := fun _ => true, evalOk := fun _ _ => true,
          shotOk := true, pdfOk := true }
        (Browser.navigateAndPrepareActions
            { TargetURL := "https://example.com", Delay := 2, JSCode := "",
              cancelTrace := [] } ++ [CdpAction.fullScreenshot 90]) =
      Except.ok [TraceEv.navigated "https://example.com", TraceEv.slept 2,
        TraceEv.screenshotTaken 90] ∧
    ((∃ jsTr, runActionE
          { navOk := fun _ => true, evalOk := fun _ _ => true,
            shotOk := true, pdfOk := true }
          (Browser.executeJSAction
            { TargetURL := "https://example.com", Delay := 2, JSCode := "",
              cancelTrace := [] }) = Except.ok jsTr ∧
        [TraceEv.navigated "https://example.com", TraceEv.slept 2] =
          TraceEv.navigated "https://example.com" :: TraceEv.slept 2 :: jsTr) ∧
      (({ TargetURL := "https://example.com", Delay := 2, JSCode := "",
          cancelTrace := [] } : Browser).JSCode = "" →
        Browser.executeJSAction
            { TargetURL := "https://example.com", Delay := 2, JSCode := "",
              cancelTrace := [] } = CdpAction.noOp ∧
          runActionE
            { navOk := fun _ => true, evalOk := fun _ _ => true,
              shotOk := true, pdfOk := true } CdpAction.noOp =
            Except.ok []) ∧
      (∃ execTr, runActionsE
            { navOk := fun _ => true, evalOk := fun _ _ => true,
              shotOk := true, pdfOk := true } [CdpAction.fullScreenshot 90] =
          Except.ok execTr ∧
        [TraceEv.navigated "https://example.com", TraceEv.slept 2,
          TraceEv.screenshotTaken 90] =
          [TraceEv.navigated "https://example.com", TraceEv.slept 2] ++
            execTr)) :=
  ⟨rfl, rfl, navigation_pipeline_order _ _ _ _ _ rfl rfl⟩

/-! ### `GetTextBySelector`: trim, filter, join (C6) -/

/-- The semantics of the first staged revision's evaluated JS
(chromedp.go line 242,
`.map(el => el.innerText.trim()).filter(text => text.length > 0)`):
given the rendered texts (`innerText`) of the matching elements in DOM
order, trim each and drop the ones that trim to empty. -/
def jsInnerTextsTrimmed (rawTexts : List String) : List String :=
  (rawTexts.map String.trim).filter (fun t => t.length > 0)

/-- The join loop of `GetTextBySelector` (chromedp.go lines 250-256):
`result = ""`, then for each text, a `"\n"` separator except before the
first, then the text. -/
def goJoinLines : List String → String
  | [] => ""
  | t :: ts => ts.foldl (fun acc s => acc ++ "\n" ++ s) t

/-- The first staged revision's `GetTextBySelector` handling of the
evaluation outcome (chromedp.go lines 240-259): propagate an evaluation
error, otherwise join the returned texts. -/
def getTextBySelector (evalResult : Except String (List String)) :
    Except String String :=
  match evalResult with
  | Except.error e => Except.error e
  | Except.ok texts => Except.ok (goJoinLines texts)

/-- The second staged revision's `GetTextBySelector` (chromedp.go lines
453-478): a fresh navigation precedes the evaluation, and either failure —
including a navigation failure on a page whose selector would match zero
elements — is returned to the caller. -/
def getTextBySelectorV2 (navResult : Except String Unit)
    (evalResult : Except String (List String)) : Except String String :=
  match navResult with
  | Except.error e => Except.error e
  | Except.ok _ =>
    match evalResult with
    | Except.error e => Except.error e
    | Except.ok texts => Except.ok (goJoinLines texts)

/-- The spec's wording of the join: texts joined "with single newline
characters", stated as a direct recursion (for comparison with the
source's accumulating loop `goJoinLines`). -/
def specJoinWithNewlines : List String → String
  | [] => ""
  | [t] => t
  | t :: ts => t ++ "\n" ++ specJoinWithNewlines ts

theorem foldl_join_shift (ss : List String) (a b : String) :
    ss.foldl (fun acc s => acc ++ "\n" ++ s) (a ++ b) =
      a ++ ss.foldl (fun acc s => acc ++ "\n" ++ s) b := by
  induction ss generalizing b with
  | nil => rfl
  | cons x ss ih =>
    simp only [List.foldl_cons]
    rw [String.append_assoc a b "\n", String.append_assoc a (b ++ "\n") x]
    exact ih (b ++ "\n" ++ x)

theorem goJoinLines_eq_spec : ∀ ts, goJoinLines ts = specJoinWithNewlines ts
  | [] => rfl
  | [_] => rfl
  | t :: s :: ss => by
    have h1 : goJoinLines (t :: s :: ss) =
        t ++ "\n" ++ goJoinLines (s :: ss) := by
      show (s :: ss).foldl (fun acc u => acc ++ "\n" ++ u) t = _
      simp only [List.foldl_cons]
      exact foldl_join_shift ss (t ++ "\n") s
    rw [h1, goJoinLines_eq_spec (s :: ss)]
    rfl

/-- C6 (amended): In the pipeline-based first staged revision, for every
list of matched elements' rendered texts (in DOM order), the
text-by-selector result is the trimmed texts with empty-trims excluded
joined by single newlines, with no error; in particular zero matches
yield the empty string with no error.  (The second staged revision
navigates first — so a zero-match call can still return a navigation
error — and evaluates `textContent` rather than rendered text; see the
counterexample.) -/
theorem text_by_selector_semantics (rawTexts : List String) :
    getTextBySelector (Except.ok (jsInnerTextsTrimmed rawTexts)) =
      Except.ok (specJoinWithNewlines
        ((rawTexts.map String.trim).filter (fun t => 0 < t.length))) ∧
    getTextBySelector (Except.ok (jsInnerTextsTrimmed [])) =
      Except.ok "" := by
  refine ⟨?_, rfl⟩
  simp only [getTextBySelector, jsInnerTextsTrimmed, goJoinLines_eq_spec]

/-- C6 counterexample: in the second staged revision, a call whose
navigation fails returns that error even when the selector would match
zero elements, and the script it evaluates at the concrete selector
`body` reads `el.textContent` — not the rendered-text (`el.innerText`)
extraction the claim describes. -/
theorem text_by_selector_counterexample :
    getTextBySelectorV2 (Except.error "navigate failed") (Except.ok []) =
      Except.error "navigate failed" ∧
    textBySelectorScriptV2 "body" ≠ textBySelectorScript "body" := by
  refine ⟨rfl, ?_⟩
  decide

/-! ### Event bridge (`SetupConsoleLogListeners`, chromedp.go lines 178-227) -/

/-- A stack-trace frame of a captured JavaScript exception. -/
structure StackFrame where
  functionName : String
  url : String
  line : Int
  column : Int
deriving DecidableEq, Repr

/-- The browser-emitted events the dispatch callback pattern-matches on.
Console arguments carry their JSON-encoded values as character lists. -/
inductive BrowserEvent where
  | consoleAPICalled (ty : String) (args : List (List Char))
  | exceptionThrown (text : String) (stack : Option (List StackFrame))
  | dialogOpening
deriving DecidableEq, Repr

/-- Log lines emitted by the dispatch callback. -/
inductive LogEmit where
  | consoleMessage (ty : String) (value : List Char)
  | jsException (text : String)
  | stackFrameDebug (frame : StackFrame)
  | dialogDetectedDebug
deriving DecidableEq, Repr

/-- Background tasks spawned by the dispatch callback. -/
inductive SpawnedTask where
  | handleDialogAccept
deriving DecidableEq, Repr

/-- Quote stripping of a console argument's JSON value (chromedp.go lines
187-191): if the value has length ≥ 2 and starts and ends with a double
quote, drop these two characters; otherwise keep it unchanged. -/
def stripJSONQuotes (val : List Char) : List Char :=
  if 2 ≤ val.length ∧ val.head? = some dquote ∧ val.getLast? = some dquote then
    (val.drop 1).dropLast
  else val

/-- The first staged revision's `ListenTarget` dispatch callback
(chromedp.go lines 181-217): for a console-API event, one info line
joining the stripped argument values with single spaces; for an exception,
one error line plus one debug line per stack frame; for a dialog, one
debug line and a spawned auto-accept task. -/
def handleTargetEvent : BrowserEvent → List LogEmit × List SpawnedTask
  | BrowserEvent.consoleAPICalled ty args =>
      ([LogEmit.consoleMessage ty
          (List.intercalate [' '] (args.map stripJSONQuotes))], [])
  | BrowserEvent.exceptionThrown text stack =>
      (LogEmit.jsException text ::
        (match stack with
         | none => []
         | some frames => frames.map LogEmit.stackFrameDebug), [])
  | BrowserEvent.dialogOpening =>
      ([LogEmit.dialogDetectedDebug], [SpawnedTask.handleDialogAccept])

/-- The second staged revision's dispatch callback (chromedp.go lines
404-432): its console branch loops over the arguments and emits one info
line per argument carrying the raw JSON value — no quote stripping, no
joining; the exception and dialog branches are as in the first revision. -/
def handleTargetEventV2 : BrowserEvent → List LogEmit × List SpawnedTask
  | BrowserEvent.consoleAPICalled ty args =>
      (args.map (fun v => LogEmit.consoleMessage ty v), [])
  | BrowserEvent.exceptionThrown text stack =>
      (LogEmit.jsException text ::
        (match stack with
         | none => []
         | some frames => frames.map LogEmit.stackFrameDebug), [])
  | BrowserEvent.dialogOpening =>
      ([LogEmit.dialogDetectedDebug], [SpawnedTask.handleDialogAccept])

/-- C7 (amended): In the first staged revision's bridge, a console-API
event yields exactly one informational log line,
tagged with the console method type, whose text joins the per-argument
values with single spaces; an argument that is a JSON-quoted string (first
and last characters `"`, length ≥ 2) loses exactly its surrounding quotes,
and any other argument is kept verbatim.  (The second staged revision's
bridge emits one raw line per argument instead; see the counterexample.) -/
theorem console_event_bridge (ty : String) (args : List (List Char))
    (mid v : List Char)
    (hv : ¬ (2 ≤ v.length ∧ v.head? = some dquote ∧ v.getLast? = some dquote)) :
    handleTargetEvent (BrowserEvent.consoleAPICalled ty args) =
      ([LogEmit.consoleMessage ty
          (List.intercalate [' '] (args.map stripJSONQuotes))], []) ∧
    stripJSONQuotes (dquote :: mid ++ [dquote]) = mid ∧
    stripJSONQuotes v = v := by
  refine ⟨rfl, ?_, ?_⟩
  · unfold stripJSONQuotes
    rw [if_pos]
    · simp
    · refine ⟨by simp, rfl, ?_⟩
      rw [List.getLast?_append_cons]
      rfl
  · unfold stripJSONQuotes
    rw [if_neg hv]

/-- Witness for C7: a quoted argument `"a"` loses its quotes, the unquoted
argument `42` is kept, and one info line is emitted. -/
theorem console_event_bridge_witness :
    (¬ (2 ≤ [Char.ofNat 52, Char.ofNat 50].length ∧
        [Char.ofNat 52, Char.ofNat 50].head? = some dquote ∧
        [Char.ofNat 52, Char.ofNat 50].getLast? = some dquote)) ∧
    (handleTargetEvent (BrowserEvent.consoleAPICalled "log"
        [[dquote, Char.ofNat 97, dquote], [Char.ofNat 52, Char.ofNat 50]]) =
      ([LogEmit.consoleMessage "log"
          (List.intercalate [' ']
            ([[dquote, Char.ofNat 97, dquote],
              [Char.ofNat 52, Char.ofNat 50]].map stripJSONQuotes))], []) ∧
      stripJSONQuotes (dquote :: [Char.ofNat 97] ++ [dquote]) = [Char.ofNat 97] ∧
      stripJSONQuotes [Char.ofNat 52, Char.ofNat 50] =
        [Char.ofNat 52, Char.ofNat 50]) :=
  ⟨by decide,
   console_event_bridge "log"
     [[dquote, Char.ofNat 97, dquote], [Char.ofNat 52, Char.ofNat 50]]
     [Char.ofNat 97] [Char.ofNat 52, Char.ofNat 50] (by decide)⟩

/-- C7 counterexample: in the second staged revision, a console event with
two arguments emits two log lines — not exactly one — and a JSON-quoted
argument keeps its surrounding quotes. -/
theorem console_event_bridge_counterexample :
    ((handleTargetEventV2 (BrowserEvent.consoleAPICalled "log"
        [[dquote, Char.ofNat 97, dquote],
         [Char.ofNat 52, Char.ofNat 50]])).1.length = 2) ∧
    (handleTargetEventV2 (BrowserEvent.consoleAPICalled "log"
        [[dquote, Char.ofNat 97, dquote]])).1 =
      [LogEmit.consoleMessage "log" [dquote, Char.ofNat 97, dquote]] :=
  ⟨rfl, rfl⟩

/-- Listener registrations on a session context (`chromedp.ListenTarget`). -/
structure ListenerState where
  handlers : List (BrowserEvent → List LogEmit × List SpawnedTask)

/-- The first staged revision's `SetupConsoleLogListeners` (chromedp.go
lines 178-220): registers the dispatch callback on the session; no return
value, no fallible work. -/
def SetupConsoleLogListeners (st : ListenerState) : ListenerState :=
  { handlers := st.handlers ++ [handleTargetEvent] }

/-- The first staged revision's `CaptureConsoleLogs` (chromedp.go lines
224-227): calls `SetupConsoleLogListeners` and returns nil. -/
def CaptureConsoleLogs (st : ListenerState) :
    ListenerState × Except String Unit :=
  (SetupConsoleLogListeners st, Except.ok ())

/-- The second staged revision's `CaptureConsoleLogs` (chromedp.go lines
401-445): registers its dispatch callback, then navigates to the target
address and returns a navigation failure to the caller (main.go lines
221-227 propagate it). -/
def captureConsoleLogsV2 (st : ListenerState)
    (navResult : Except String Unit) :
    ListenerState × Except String Unit :=
  ({ handlers := st.handlers ++ [handleTargetEventV2] },
   match navResult with
   | Except.error e => Except.error e
   | Except.ok _ => Except.ok ())

/-- C8 (amended): In the pipeline-based first staged revision, attaching
the event bridge cannot fail the invocation: for every session state,
`CaptureConsoleLogs` returns success, and its only effect is the listener
registration performed by `SetupConsoleLogListeners`.  (The second staged
revision's `CaptureConsoleLogs` also navigates and returns the navigation
error; see the counterexample.) -/
theorem capture_console_logs_cannot_fail (st : ListenerState) :
    (CaptureConsoleLogs st).2 = Except.ok () ∧
    (CaptureConsoleLogs st).1.handlers = st.handlers ++ [handleTargetEvent] :=
  ⟨rfl, rfl⟩

/-- C8 counterexample: in the second staged revision, a navigation failure
makes `CaptureConsoleLogs` return an error, not success. -/
theorem capture_console_logs_counterexample :
    (captureConsoleLogsV2 { handlers := [] }
        (Except.error "navigate failed")).2 =
      Except.error "navigate failed" :=
  rfl

/-! ### Session establishment (`InitializeChromedp`, chromedp.go lines 28-105) -/

/-- Go `strings.Split(s, ":")`, character-level: split at every colon. -/
def splitOnColon : List Char → List (List Char)
  | [] => [[]]
  | c :: rest =>
    if c = ':' then [] :: splitOnColon rest
    else
      match splitOnColon rest with
      | [] => [[c]]
      | p :: ps => (c :: p) :: ps

theorem splitOnColon_nil : splitOnColon [] = [[]] := rfl

theorem splitOnColon_cons (c : Char) (rest : List Char) :
    splitOnColon (c :: rest) =
      if c = ':' then [] :: splitOnColon rest
      else
        match splitOnColon rest with
        | [] => [[c]]
        | p :: ps => (c :: p) :: ps := rfl

theorem splitOnColon_ne_nil (s : List Char) : splitOnColon s ≠ [] := by
  cases s with
  | nil => simp [splitOnColon_nil]
  | cons c rest =>
    rw [splitOnColon_cons]
    by_cases hc : c = ':'
    · simp [hc]
    · rw [if_neg hc]
      cases splitOnColon rest <;> simp

theorem splitOnColon_no_colon (s : List Char) (h : ':' ∉ s) :
    splitOnColon s = [s] := by
  induction s with
  | nil => rfl
  | cons c rest ih =>
    have hc : c ≠ ':' := fun e => h (by simp [e])
    have hrest : ':' ∉ rest := fun hm => h (List.mem_cons_of_mem _ hm)
    rw [splitOnColon_cons, if_neg hc, ih hrest]

theorem splitOnColon_append (a b : List Char) (ha : ':' ∉ a) :
    splitOnColon (a ++ ':' :: b) = a :: splitOnColon b := by
  induction a with
  | nil =>
    rw [List.nil_append, splitOnColon_cons, if_pos rfl]
  | cons c a ih =>
    have hc : c ≠ ':' := fun e => ha (by simp [e])
    have ha' : ':' ∉ a := fun hm => ha (List.mem_cons_of_mem _ hm)
    rw [List.cons_append, splitOnColon_cons, if_neg hc, ih ha']

theorem splitOnColon_eq_singleton (s : List Char) :
    ∀ b, splitOnColon s = [b] → ':' ∉ b ∧ s = b := by
  induction s with
  | nil =>
    intro b h
    rw [splitOnColon_nil] at h
    obtain ⟨hb, -⟩ := List.cons.inj h
    subst hb
    exact ⟨by simp, rfl⟩
  | cons c rest ih =>
    intro b h
    rw [splitOnColon_cons] at h
    by_cases hc : c = ':'
    · rw [if_pos hc] at h
      obtain ⟨-, h2⟩ := List.cons.inj h
      exact absurd h2 (splitOnColon_ne_nil rest)
    · rw [if_neg hc] at h
      cases hsp : splitOnColon rest with
      | nil => exact absurd hsp (splitOnColon_ne_nil rest)
      | cons p ps =>
        rw [hsp] at h
        have h' : (c :: p) :: ps = [b] := h
        obtain ⟨h1, h3⟩ := List.cons.inj h'
        subst h3
        obtain ⟨hpc, hrp⟩ := ih p hsp
        subst h1
        refine ⟨?_, by rw [hrp]⟩
        intro hm
        rcases List.mem_cons.mp hm with he | hm2
        · exact hc he.symm
        · exact hpc hm2


theorem splitOnColon_eq_pair (s : List Char) :
    ∀ a b, splitOnColon s = [a, b] →
      ':' ∉ a ∧ ':' ∉ b ∧ s = a ++ ':' :: b := by
  induction s with
  | nil =>
    intro a b h
    rw [splitOnColon_nil] at h
    obtain ⟨-, h2⟩ := List.cons.inj h
    exact absurd h2 (by simp)
  | cons c rest ih =>
    intro a b h
    rw [splitOnColon_cons] at h
    by_cases hc : c = ':'
    · rw [if_pos hc] at h
      obtain ⟨ha, hrb⟩ := List.cons.inj h
      obtain ⟨hbc, hrb'⟩ := splitOnColon_eq_singleton rest b hrb
      subst ha
      subst hrb'
      subst hc
      exact ⟨by simp, hbc, rfl⟩
    · rw [if_neg hc] at h
      cases hsp : splitOnColon rest with
      | nil => exact absurd hsp (splitOnColon_ne_nil rest)
      | cons p ps =>
        rw [hsp] at h
        have h' : (c :: p) :: ps = [a, b] := h
        obtain ⟨h1, h3⟩ := List.cons.inj h'
        have hps : splitOnColon rest = [p, b] := by rw [hsp, h3]
        obtain ⟨hpc, hbc, hdecomp⟩ := ih p b hps
        subst h1
        refine ⟨?_, hbc, ?_⟩
        · intro hm
          rcases List.mem_cons.mp hm with he | hm2
          · exact hc he.symm
          · exact hpc hm2
        · rw [List.cons_append, ← hdecomp]

theorem hasSubstr_singleton_iff (c : Char) (s : List Char) :
    hasSubstr [c] s = true ↔ c ∈ s := by
  induction s with
  | nil => simp [hasSubstr]
  | cons x t ih =>
    unfold hasSubstr
    simp only [List.isPrefixOf, Bool.or_eq_true, Bool.and_eq_true,
      beq_iff_eq, List.mem_cons, ih]
    constructor
    · rintro (⟨he, _⟩ | hm)
      · exact Or.inl he
      · exact Or.inr hm
    · rintro (he | hm)
      · exact Or.inl ⟨he, by simp [List.isPrefixOf]⟩
      · exact Or.inr hm

/-- Errors of session establishment (`InitializeChromedp`):
bad endpoint format, probe network failure, probe non-200 status. -/
inductive InitError where
  | formatError (endpoint : List Char)
  | connectError (endpoint : List Char)
  | statusError (status : Nat)
deriving DecidableEq, Repr

/-- Scheme normalization (chromedp.go lines 36-39): prepend `http://` when
no http/https scheme is present. -/
def normalizeRemoteURL (s : String) : String :=
  if s.startsWith "http://" || s.startsWith "https://" then s
  else "http://" ++ s

/-- Embeds `InitializeChromedp` (chromedp.go lines 28-105).  The HTTP probe
of `<remoteURL>/json/version` is an oracle parameter: `none` models a
network failure, `some status` an HTTP response.  The remote branch
validates the endpoint format (a colon present, exactly two non-empty
colon-separated parts) before the probe; the returned session's `Cancel`
closure runs deadline cancel, task cancel, allocator cancel in that order
(remote), or deadline cancel then allocator cancel (local). -/
def initializeChromedp (target : String) (timeout delay : Int)
    (remoteDebuggingPort : List Char) (jsCode : String)
    (probe : String → Option Nat) : Except InitError Browser :=
  if remoteDebuggingPort ≠ [] then
    let remoteURL := normalizeRemoteURL (String.mk remoteDebuggingPort)
    if hasSubstr [':'] remoteDebuggingPort = false then
      Except.error (InitError.formatError remoteDebuggingPort)
    else
      let parts := splitOnColon remoteDebuggingPort
      if parts.length ≠ 2 ∨ parts.headD [] = [] ∨ parts.getD 1 [] = [] then
        Except.error (InitError.formatError remoteDebuggingPort)
      else
        match probe (remoteURL ++ "/json/version") with
        | none => Except.error (InitError.connectError remoteDebuggingPort)
        | some status =>
          if status ≠ 200 then Except.error (InitError.statusError status)
          else
            Except.ok
              { TargetURL := target, Delay := delay, JSCode := jsCode,
                cancelTrace := [CancelEvent.sessionDeadline,
                                CancelEvent.taskHandle, CancelEvent.allocator] }
  else
    Except.ok
      { TargetURL := target, Delay := delay, JSCode := jsCode,
        cancelTrace := [CancelEvent.sessionDeadline, CancelEvent.allocator] }

/-- C4: For every non-empty remote endpoint, establishment fails with a
format error — identically for every probe oracle, hence before any network
request — unless the endpoint is exactly one colon separating two non-empty
components; when it is, establishment never returns a format error. -/
theorem remote_endpoint_validation (target : String) (timeout delay : Int)
    (endpoint : List Char) (jsCode : String)
    (probeA probeB : String → Option Nat) (hne : endpoint ≠ []) :
    ((¬ ∃ hostPart portPart, hostPart ≠ [] ∧ portPart ≠ [] ∧
        ':' ∉ hostPart ∧ ':' ∉ portPart ∧
        endpoint = hostPart ++ ':' :: portPart) →
      initializeChromedp target timeout delay endpoint jsCode probeA =
          Except.error (InitError.formatError endpoint) ∧
      initializeChromedp target timeout delay endpoint jsCode probeA =
        initializeChromedp target timeout delay endpoint jsCode probeB) ∧
    ((∃ hostPart portPart, hostPart ≠ [] ∧ portPart ≠ [] ∧
        ':' ∉ hostPart ∧ ':' ∉ portPart ∧
        endpoint = hostPart ++ ':' :: portPart) →
      initializeChromedp target timeout delay endpoint jsCode probeA ≠
        Except.error (InitError.formatError endpoint)) ∧
    (∀ pr : String → Option Nat,
      initializeChromedp "t" 10 2 (String.data "localhost") "" pr =
          Except.error (InitError.formatError (String.data "localhost")) ∧
      initializeChromedp "t" 10 2 (String.data "localhost:") "" pr =
          Except.error (InitError.formatError (String.data "localhost:")) ∧
      initializeChromedp "t" 10 2 (String.data ":9222") "" pr =
          Except.error (InitError.formatError (String.data ":9222")) ∧
      initializeChromedp "t" 10 2 (String.data "localhost:9222") "" pr ≠
        Except.error (InitError.formatError (String.data "localhost:9222"))) := by
  refine ⟨?_, ?_, ?_⟩
  case refine_3 =>
    intro pr
    refine ⟨rfl, rfl, rfl, ?_⟩
    have hcond : ¬ ((splitOnColon (String.data "localhost:9222")).length ≠ 2 ∨
        (splitOnColon (String.data "localhost:9222")).headD [] = [] ∨
        (splitOnColon (String.data "localhost:9222")).getD 1 [] = []) := by
      decide
    simp only [initializeChromedp]
    rw [if_pos (by decide), if_neg (by decide), if_neg hcond]
    cases hpr : pr (normalizeRemoteURL
        (String.mk (String.data "localhost:9222")) ++ "/json/version") with
    | none => simp
    | some status =>
      by_cases h200 : status ≠ 200
      · simp [h200]
      · simp [h200]
  · intro hbad
    by_cases hcol : hasSubstr [':'] endpoint = false
    · constructor <;> simp [initializeChromedp, hne, hcol]
    · have hcol' : hasSubstr [':'] endpoint = true := by
        cases hh : hasSubstr [':'] endpoint
        · exact absurd hh hcol
        · rfl
      have hfail : (splitOnColon endpoint).length ≠ 2 ∨
          (splitOnColon endpoint).headD [] = [] ∨
          (splitOnColon endpoint).getD 1 [] = [] := by
        by_contra hok
        push_neg at hok
        obtain ⟨hlen, hh, hg⟩ := hok
        cases hsp : splitOnColon endpoint with
        | nil => exact absurd hsp (splitOnColon_ne_nil endpoint)
        | cons p ps =>
          cases ps with
          | nil => rw [hsp] at hlen; simp at hlen
          | cons q qs =>
            cases qs with
            | nil =>
              obtain ⟨hpc, hqc, hdec⟩ := splitOnColon_eq_pair endpoint p q hsp
              rw [hsp] at hh hg
              simp at hh hg
              exact hbad ⟨p, q, hh, hg, hpc, hqc, hdec⟩
            | cons r rs => rw [hsp] at hlen; simp at hlen
      have h1 : initializeChromedp target timeout delay endpoint jsCode probeA =
          Except.error (InitError.formatError endpoint) := by
        simp only [initializeChromedp]
        rw [if_pos hne, if_neg (by rw [hcol']; simp), if_pos hfail]
      have h2 : initializeChromedp target timeout delay endpoint jsCode probeB =
          Except.error (InitError.formatError endpoint) := by
        simp only [initializeChromedp]
        rw [if_pos hne, if_neg (by rw [hcol']; simp), if_pos hfail]
      exact ⟨h1, h1.trans h2.symm⟩
  · rintro ⟨hostPart, portPart, hh1, hp1, hhc, hpc, rfl⟩
    have hcol : hasSubstr [':'] (hostPart ++ ':' :: portPart) = true :=
      (hasSubstr_singleton_iff ':' _).mpr (by simp)
    have hsp : splitOnColon (hostPart ++ ':' :: portPart) =
        [hostPart, portPart] := by
      rw [splitOnColon_append hostPart portPart hhc,
        splitOnColon_no_colon portPart hpc]
    have hcond : ¬ ((splitOnColon (hostPart ++ ':' :: portPart)).length ≠ 2 ∨
        (splitOnColon (hostPart ++ ':' :: portPart)).headD [] = [] ∨
        (splitOnColon (hostPart ++ ':' :: portPart)).getD 1 [] = []) := by
      rw [hsp]
      push_neg
      exact ⟨by simp, by simpa using hh1, by simpa using hp1⟩
    have hshape : initializeChromedp target timeout delay
        (hostPart ++ ':' :: portPart) jsCode probeA =
        (match probeA (normalizeRemoteURL
            (String.mk (hostPart ++ ':' :: portPart)) ++ "/json/version") with
         | none => Except.error
             (InitError.connectError (hostPart ++ ':' :: portPart))
         | some status =>
           if status ≠ 200 then Except.error (InitError.statusError status)
           else
             Except.ok
               { TargetURL := target, Delay := delay, JSCode := jsCode,
                 cancelTrace := [CancelEvent.sessionDeadline,
                                 CancelEvent.taskHandle,
                                 CancelEvent.allocator] }) := by
      simp only [initializeChromedp]
      rw [if_pos hne, if_neg (by rw [hcol]; simp), if_neg hcond]
    rw [hshape]
    cases hpr : probeA (normalizeRemoteURL
        (String.mk (hostPart ++ ':' :: portPart)) ++ "/json/version") with
    | none => simp
    | some status =>
      by_cases h200 : status ≠ 200
      · simp [h200]
      · simp [h200]

/-- Witness for C4 at the endpoint `localhost` (no colon): a format error
for every probe oracle. -/
theorem remote_endpoint_validation_witness :
    (String.data "localhost" ≠ []) ∧
    ((¬ ∃ hostPart portPart, hostPart ≠ [] ∧ portPart ≠ [] ∧
        ':' ∉ hostPart ∧ ':' ∉ portPart ∧
        String.data "localhost" = hostPart ++ ':' :: portPart) →
      initializeChromedp "t" 10 2 (String.data "localhost") ""
          (fun _ => none) =
          Except.error (InitError.formatError (String.data "localhost")) ∧
      initializeChromedp "t" 10 2 (String.data "localhost") ""
          (fun _ => none) =
        initializeChromedp "t" 10 2 (String.data "localhost") ""
          (fun _ => some 200)) ∧
    ((∃ hostPart portPart, hostPart ≠ [] ∧ portPart ≠ [] ∧
        ':' ∉ hostPart ∧ ':' ∉ portPart ∧
        String.data "localhost" = hostPart ++ ':' :: portPart) →
      initializeChromedp "t" 10 2 (String.data "localhost") ""
          (fun _ => none) ≠
        Except.error (InitError.formatError (String.data "localhost"))) ∧
    (∀ pr : String → Option Nat,
      initializeChromedp "t" 10 2 (String.data "localhost") "" pr =
          Except.error (InitError.formatError (String.data "localhost")) ∧
      initializeChromedp "t" 10 2 (String.data "localhost:") "" pr =
          Except.error (InitError.formatError (String.data "localhost:")) ∧
      initializeChromedp "t" 10 2 (String.data ":9222") "" pr =
          Except.error (InitError.formatError (String.data ":9222")) ∧
      initializeChromedp "t" 10 2 (String.data "localhost:9222") "" pr ≠
        Except.error (InitError.formatError (String.data "localhost:9222"))) :=
  ⟨by decide,
   remote_endpoint_validation "t" 10 2 (String.data "localhost") ""
     (fun _ => none) (fun _ => some 200) (by decide)⟩

/-- C9: Every session returned by establishment has a cancellation function
that cancels, in order, the session deadline, the task handle and the
allocator connection (remote establishment), or the session deadline and
the allocator (local establishment). -/
theorem session_cancel_order (target : String) (timeout delay : Int)
    (endpoint : List Char) (jsCode : String) (probe : String → Option Nat)
    (b : Browser)
    (hok : initializeChromedp target timeout delay endpoint jsCode probe =
      Except.ok b) :
    (endpoint ≠ [] →
      b.cancelTrace = [CancelEvent.sessionDeadline, CancelEvent.taskHandle,
        CancelEvent.allocator]) ∧
    (endpoint = [] →
      b.cancelTrace = [CancelEvent.sessionDeadline, CancelEvent.allocator]) := by
  constructor
  · intro hne
    simp only [initializeChromedp] at hok
    rw [if_pos hne] at hok
    by_cases hcol : hasSubstr [':'] endpoint = false
    · rw [if_pos hcol] at hok
      exact absurd hok (by simp)
    · rw [if_neg hcol] at hok
      by_cases hcond : (splitOnColon endpoint).length ≠ 2 ∨
          (splitOnColon endpoint).headD [] = [] ∨
          (splitOnColon endpoint).getD 1 [] = []
      · rw [if_pos hcond] at hok
        exact absurd hok (by simp)
      · rw [if_neg hcond] at hok
        cases hpr : probe (normalizeRemoteURL (String.mk endpoint) ++
            "/json/version") with
        | none =>
          rw [hpr] at hok
          exact absurd hok (by simp)
        | some status =>
          rw [hpr] at hok
          have hok2 : (if status ≠ 200 then
                Except.error (InitError.statusError status)
              else
                Except.ok
                  { TargetURL := target, Delay := delay, JSCode := jsCode,
                    cancelTrace := [CancelEvent.sessionDeadline,
                                    CancelEvent.taskHandle,
                                    CancelEvent.allocator] }) =
              Except.ok b := hok
          by_cases h200 : status ≠ 200
          · rw [if_pos h200] at hok2
            exact absurd hok2 (by simp)
          · rw [if_neg h200] at hok2
            injection hok2 with hb
            rw [← hb]
  · intro he
    subst he
    simp only [initializeChromedp] at hok
    rw [if_neg (by simp)] at hok
    injection hok with hb
    rw [← hb]

/-- Witness for C9: remote establishment at `localhost:9222` with a probe
answering 200 yields the three-step cancel order. -/
theorem session_cancel_order_witness :
    (initializeChromedp "https://example.com" 10 2
        (String.data "localhost:9222") "" (fun _ => some 200) =
      Except.ok
        { TargetURL := "https://example.com", Delay := 2, JSCode := "",
          cancelTrace := [CancelEvent.sessionDeadline, CancelEvent.taskHandle,
            CancelEvent.allocator] }) ∧
    (String.data "localhost:9222" ≠ []) ∧
    ({ TargetURL := "https://example.com", Delay := 2, JSCode := "",
       cancelTrace := [CancelEvent.sessionDeadline, CancelEvent.taskHandle,
         CancelEvent.allocator] } : Browser).cancelTrace =
      [CancelEvent.sessionDeadline, CancelEvent.taskHandle,
        CancelEvent.allocator] :=
  ⟨rfl, by decide,
   (session_cancel_order "https://example.com" 10 2
       (String.data "localhost:9222") "" (fun _ => some 200) _ rfl).1
     (by decide)⟩

/-! ### The selector splice in `GetTextBySelector`'s script (C10) -/

theorem takeWhile_append_all (p : Char → Bool) (l r : List Char)
    (hl : ∀ x ∈ l, p x = true) :
    (l ++ r).takeWhile p = l ++ r.takeWhile p := by
  induction l with
  | nil => rfl
  | cons x xs ih =>
    have hx : p x = true := hl x (by simp)
    rw [List.cons_append]
    simp only [List.takeWhile_cons, hx, if_true]
    rw [ih (fun y hy => hl y (by simp [hy]))]
    rfl

theorem takeWhile_append_stop (p : Char → Bool) (l r : List Char)
    (hl : ∃ x ∈ l, p x = false) :
    (l ++ r).takeWhile p = l.takeWhile p := by
  induction l with
  | nil =>
    obtain ⟨x, hx, -⟩ := hl
    simp at hx
  | cons x xs ih =>
    by_cases hx : p x = true
    · have hxs : ∃ y ∈ xs, p y = false := by
        obtain ⟨y, hy, hpy⟩ := hl
        rcases List.mem_cons.mp hy with rfl | hy2
        · rw [hx] at hpy
          cases hpy
        · exact ⟨y, hy2, hpy⟩
      rw [List.cons_append]
      simp only [List.takeWhile_cons, hx, if_true]
      rw [ih hxs]
    · have hx' : p x = false := by
        cases hpx : p x
        · rfl
        · exact absurd hpx hx
      rw [List.cons_append]
      simp [List.takeWhile_cons, hx']

/-- C10: The JS source evaluated by `GetTextBySelector` splices the
selector verbatim — no escaping or quoting — between a fixed text ending
in a single-quote character and a fixed text beginning with one; hence the
single-quoted literal opened by the fixed text is exactly the selector
when the selector contains no single quote, but differs from the selector
when it contains one (the quote closes the literal early, altering script
syntax rather than the queried selector). -/
theorem selector_verbatim_splice (sel1 sel2 : String)
    (h1 : squote ∉ sel1.data) (h2 : squote ∈ sel2.data) :
    (∀ selector : String, textBySelectorScript selector =
        querySelectorScriptOpen ++ selector ++ querySelectorScriptClose) ∧
    querySelectorScriptOpen.data.getLast? = some squote ∧
    querySelectorScriptClose.data.head? = some squote ∧
    (sel1.data ++ querySelectorScriptClose.data).takeWhile
        (fun c => c != squote) = sel1.data ∧
    (sel2.data ++ querySelectorScriptClose.data).takeWhile
        (fun c => c != squote) ≠ sel2.data := by
  refine ⟨fun selector => rfl, by decide, by decide, ?_, ?_⟩
  · rw [takeWhile_append_all _ _ _ ?all]
    · rw [show querySelectorScriptClose.data.takeWhile
          (fun c => c != squote) = [] from by decide]
      exact List.append_nil _
    · intro x hx
      have hxs : x ≠ squote := fun e => h1 (e ▸ hx)
      simpa using hxs
  · intro heq
    rw [takeWhile_append_stop _ _ _ ⟨squote, h2, by simp⟩] at heq
    have hall := List.takeWhile_eq_self_iff.mp heq
    have hq := hall squote h2
    simp at hq

/-- Witness for C10 with the quote-free selector `body` and a selector
containing a single quote. -/
theorem selector_verbatim_splice_witness :
    (squote ∉ ("body" : String).data) ∧
    (squote ∈ ("a" ++ sq ++ "b").data) ∧
    ((∀ selector : String, textBySelectorScript selector =
        querySelectorScriptOpen ++ selector ++ querySelectorScriptClose) ∧
      querySelectorScriptOpen.data.getLast? = some squote ∧
      querySelectorScriptClose.data.head? = some squote ∧
      (("body" : String).data ++ querySelectorScriptClose.data).takeWhile
          (fun c => c != squote) = ("body" : String).data ∧
      (("a" ++ sq ++ "b").data ++ querySelectorScriptClose.data).takeWhile
          (fun c => c != squote) ≠ ("a" ++ sq ++ "b").data) :=
  ⟨by decide, by decide,
   selector_verbatim_splice "body" ("a" ++ sq ++ "b") (by decide) (by decide)⟩

end ThatCliWebToolbox
